import Mathlib

/-! gopherboots: classifier, validation, report and worker pool

A shallow embedding of `main.go`.  Go `string` values are Lean `String`s; the
package-level slices `badDNS`, `timeoutHosts`, `authHosts`, `generalHosts`,
`knifeHosts` become the fields of an explicit state record that every
function reading or writing them receives and returns.  The Go `int` exit
code is an `Int`.  `log.Fatal` and run-time panics are the error side of
`Except`.

The classifier receives `o := string(out)` as text.  The three markers are
plain ASCII, so searching them character by character in the decoded text
finds the same occurrences as the byte-wise search of `strings.Contains`.

What lies outside the program is a parameter: the environment lookup of
`generateCommand`, what the operating system does with the command started
by `runCommand` and with the log file written by `bootstrap`, the results of
`queue.Get` seen by a worker, and the queue lengths seen by the start loop of
`main`.
-/

namespace Gopherboots

/-! ## Data model -/

/-- Host is used for organizing Chef elements (`type Host struct`). -/
structure Host where
  Hostname : String
  Domain : String
  ChefEnv : String
  RunList : String
  deriving DecidableEq, Repr

/-- Report is used for organizing Hosts (`type Report struct`). -/
structure Report where
  DNSHost : List Host
  AuthHosts : List Host
  TimeoutHosts : List Host
  GeneralHosts : List Host
  KnifeHosts : List Host
  deriving DecidableEq, Repr

/-- The five package-level failure slices of `main.go` (lines 29-33). -/
structure Globals where
  badDNS : List Host
  timeoutHosts : List Host
  authHosts : List Host
  generalHosts : List Host
  knifeHosts : List Host
  deriving DecidableEq, Repr

/-- The value of the package-level slices at program start: all nil. -/
def Globals.init : Globals :=
  { badDNS := [], timeoutHosts := [], authHosts := [], generalHosts := [], knifeHosts := [] }

/-! ## `strings.Contains` and `strings.Join` -/

/-- Does `sub` occur in `s` starting at some position?  Scans the start
positions of `s` from left to right. -/
def containsFrom (sub : List Char) : List Char → Bool
  | [] => sub.isEmpty
  | c :: cs => sub.isPrefixOf (c :: cs) || containsFrom sub cs

/-- Go `strings.Contains(s, substr)`: `substr` occurs within `s`, compared
character for character (no case folding, no whitespace normalisation). -/
def Contains (s substr : String) : Bool :=
  containsFrom substr.toList s.toList

/-- Go `strings.Join(elems, sep)`. -/
def Join (elems : List String) (sep : String) : String :=
  sep.intercalate elems

/-! ## The classifier -/

/-- Go `handleBootstrapError(out, host, exitCode)` (`main.go` 111-134), with
`o := string(out)` passed as the text `o`.  Returns `bootstrapSuccess`
together with the updated package-level slices. -/
def handleBootstrapError (o : String) (host : Host) (exitCode : Int) (g : Globals) :
    Bool × Globals :=
  if Contains o "Authentication failed" then
    (false, { g with authHosts := g.authHosts ++ [host] })
  else if Contains o "ConnectionTimeout" then
    (false, { g with timeoutHosts := g.timeoutHosts ++ [host] })
  else if Contains o "nodename nor servname provided" then
    (false, { g with badDNS := g.badDNS ++ [host] })
  else if exitCode = 1 then
    (false, { g with generalHosts := g.generalHosts ++ [host] })
  else if exitCode = 100 then
    (false, { g with knifeHosts := g.knifeHosts ++ [host] })
  else
    (true, g)

/-- Ways the program stops abnormally: the four `log.Fatal` calls of
`hostValidate`, an index out of range in `csvToHosts`, the two `log.Fatalf`
calls of `runCommand`, the `panic` of `check` after `ioutil.WriteFile` in
`bootstrap`, and the failed type assertion of `worker`. -/
inductive Fatal where
  | noHostname (element : Host)
  | noDomain (element : Host)
  | noChefEnv (element : Host)
  | noRunList (element : Host)
  | indexOutOfRange
  | cmdStart
  | cmdWait
  | writeFile
  | nilTypeAssertion
  deriving DecidableEq, Repr

/-- The value `runCommand(cmd)` returns: the combined output and the exit
code. -/
structure CmdResult where
  out : String
  exitCode : Int
  deriving DecidableEq, Repr

/-- What `c.Wait()` returns in `runCommand`: nil, an `*exec.ExitError`
(`status` is the `ExitStatus()` of its `syscall.WaitStatus`, `none` when
`Sys()` is not a `WaitStatus`), or another error. -/
inductive WaitOutcome where
  | success
  | exitError (status : Option Int)
  | otherError
  deriving DecidableEq, Repr

/-- What the operating system does with the process of one `runCommand`
call: whether `c.Start()` fails, what `c.Wait()` returns, and the bytes
collected on standard output and standard error. -/
structure ProcessRun where
  startErr : Bool
  wait : WaitOutcome
  stdout : String
  stderr : String
  deriving DecidableEq, Repr

/-- Go `runCommand(cmd)` (`main.go` 136-164) on the process behaviour `p`:
`.error` is `log.Fatalf`; otherwise standard error followed by standard
output, and the exit code, which stays 0 unless an exit status was read. -/
def runCommand (p : ProcessRun) : Except Fatal CmdResult :=
  if p.startErr then .error .cmdStart
  else
    match p.wait with
    | .otherError => .error .cmdWait
    | .exitError (some status) => .ok { out := p.stderr ++ p.stdout, exitCode := status }
    | .exitError none => .ok { out := p.stderr ++ p.stdout, exitCode := 0 }
    | .success => .ok { out := p.stderr ++ p.stdout, exitCode := 0 }

/-- What happens outside the program during one `bootstrap` call: the
behaviour of the command's process, and whether `ioutil.WriteFile` of the
log file returns an error. -/
structure Execution where
  proc : ProcessRun
  writeErr : Bool
  deriving DecidableEq, Repr

/-- Go `bootstrap(host)` (`main.go` 166-174): run the command, write the log
file, `check` the write (a panic on error), then classify.  The boolean of
`handleBootstrapError` is dropped, as in the source. -/
def bootstrap (e : Execution) (host : Host) (g : Globals) : Except Fatal Globals :=
  match runCommand e.proc with
  | .error f => .error f
  | .ok cmdOut =>
    if e.writeErr then .error .writeFile
    else .ok (handleBootstrapError cmdOut.out host cmdOut.exitCode g).2

/-- A single worker draining the queue front to back: `bootstrap` is applied
to every queued host in order, each with what happens outside during its
call; the first abnormal stop ends the run. -/
def runSequential : List (Host × Execution) → Globals → Except Fatal Globals
  | [], g => .ok g
  | (host, e) :: rest, g =>
    match bootstrap e host g with
    | .error f => .error f
    | .ok g1 => runSequential rest g1

/-- The `bootstrapSuccess` values computed along `runSequential`, in order. -/
def sequentialResults : List (Host × Execution) → Globals → Except Fatal (List Bool)
  | [], _ => .ok []
  | (host, e) :: rest, g =>
    match runCommand e.proc with
    | .error f => .error f
    | .ok cmdOut =>
      if e.writeErr then .error .writeFile
      else
        match sequentialResults rest (handleBootstrapError cmdOut.out host cmdOut.exitCode g).2 with
        | .error f => .error f
        | .ok rs => .ok ((handleBootstrapError cmdOut.out host cmdOut.exitCode g).1 :: rs)

/-- The `bootstrap` call reaches `handleBootstrapError`: `runCommand` returns
and the log file is written. -/
def Execution.completes (e : Execution) : Bool :=
  match runCommand e.proc with
  | .error _ => false
  | .ok _ => !e.writeErr

/-! ## Input validation -/

/-- Go `hostValidate(hosts)` (`main.go` 59-74): `.error` is `log.Fatal`,
`.ok ()` is a normal return. -/
def hostValidate : List Host → Except Fatal Unit
  | [] => .ok ()
  | element :: rest =>
    if element.Hostname = " " then .error (.noHostname element)
    else if element.Domain = " " then .error (.noDomain element)
    else if element.ChefEnv = " " then .error (.noChefEnv element)
    else if element.RunList = " " then .error (.noRunList element)
    else hostValidate rest

/-- The read loop of `csvToHosts` (`main.go` 89-102) over the records the
tab-separated reader delivered: each record becomes a `Host` from its fields
0 to 3. -/
def readHosts : List (List String) → Except Fatal (List Host)
  | [] => .ok []
  | line :: rest =>
    match line with
    | f0 :: f1 :: f2 :: f3 :: _ =>
      match readHosts rest with
      | .ok hosts => .ok ({ Hostname := f0, Domain := f1, ChefEnv := f2, RunList := f3 } :: hosts)
      | .error e => .error e
    | _ => .error .indexOutOfRange

/-- Go `csvToHosts` (`main.go` 76-109) on a file that opened and parsed into
`records`: build the hosts, validate them, return them. -/
def csvToHosts (records : List (List String)) : Except Fatal (List Host) :=
  match readHosts records with
  | .error e => .error e
  | .ok hosts =>
    match hostValidate hosts with
    | .error e => .error e
    | .ok () => .ok hosts

/-! ## Report -/

/-- One copy loop of `errorReport`: `for i := range src { dst = append(dst, src[i]) }`
starting from the nil slice. -/
def copyLoop (src : List Host) : List Host :=
  (List.range src.length).foldl
    (fun dst i => match src.get? i with
      | some h => dst ++ [h]
      | none => dst) []

/-- Go `errorReport()` (`main.go` 176-194). -/
def errorReport (g : Globals) : Report :=
  { DNSHost := copyLoop g.badDNS
    AuthHosts := copyLoop g.authHosts
    TimeoutHosts := copyLoop g.timeoutHosts
    GeneralHosts := copyLoop g.generalHosts
    KnifeHosts := copyLoop g.knifeHosts }

/-- The last statement of `main` (`main.go` 247-252): the report that is
printed, `none` when nothing is printed. -/
def mainReport (g : Globals) : Option Report :=
  if g.knifeHosts.length > 0 || g.generalHosts.length > 0 || g.badDNS.length > 0 ||
      g.timeoutHosts.length > 0 || g.authHosts.length > 0 then
    some (errorReport g)
  else
    none

/-! ## Command string -/

/-- Go `generateCommand(host)` (`main.go` 196-203); `getenv` is `os.Getenv`,
which yields the empty string for an unset variable. -/
def generateCommand (getenv : String → String) (host : Host) : String :=
  let fqdn := Join [host.Hostname, host.Domain] "."
  let superuserName := getenv "superuserName"
  let superuserPw := getenv "superuserPw"
  Join ["knife bootstrap ", fqdn, " -N ", host.Hostname, " -E ", host.ChefEnv, " --sudo",
    " --ssh-user ", superuserName, " --ssh-password ", superuserPw, " -r ", host.RunList] ""

/-! ## Worker and pool start -/

/-- What one worker touches: the failure slices and the `errored` and
`complete` queues. -/
structure WorkerState where
  globals : Globals
  errored : List Host
  complete : List Host
  deriving DecidableEq, Repr

/-- One pass through the body of the `for` loop of `worker` (`main.go`
207-217).  `val` and `errNonNil` are the two results of `queue.Get(2)`:
`val` is `none` for the nil interface value, `errNonNil` says `err != nil`.
`exec` is what happens outside during the `bootstrap` call for the item.
The type assertion `val.(Host)` comes first, as in the source, and stops the
program on a nil `val`. -/
def workerIteration (val : Option Host) (errNonNil : Bool) (exec : Execution)
    (w : WorkerState) : Except Fatal WorkerState :=
  match val with
  | none => .error .nilTypeAssertion
  | some item =>
    match bootstrap exec item w.globals with
    | .error f => .error f
    | .ok g =>
      if errNonNil then
        .ok { w with globals := g, errored := w.errored ++ [item] }
      else
        .ok { w with globals := g, complete := w.complete ++ [item] }

/-- What the queue hands a worker in one pass of its loop, entered because
`queue.IsEmpty()` was false: the two results of `queue.Get(2)` and what
happens outside if `bootstrap` runs. -/
structure Attempt where
  val : Option Host
  errNonNil : Bool
  exec : Execution
  deriving DecidableEq, Repr

/-- Go `worker(queue)` (`main.go` 204-220) against a script of loop passes;
the script ends when `queue.IsEmpty()` is observed true.  `.ok` is the normal
return, after which the deferred `Wg.Done()` runs; `.error` is a panic. -/
def worker : List Attempt → WorkerState → Except Fatal WorkerState
  | [], w => .ok w
  | a :: rest, w =>
    match workerIteration a.val a.errNonNil a.exec w with
    | .error e => .error e
    | .ok w1 => worker rest w1

/-- The start loop of `main` (`main.go` 240-245):
`for i := 0; i < maxConcurrency && !queue.IsEmpty(); i++`.  `queueLen i` is
the length of the queue when the condition is evaluated with loop counter
`i`; `remaining` is `maxConcurrency - i`.  The value is the counter at loop
exit, which is the number of `go worker(queue)` statements executed. -/
def startLoop (queueLen : Nat → Nat) : (remaining : Nat) → (i : Nat) → Nat
  | 0, i => i
  | remaining + 1, i =>
    if queueLen i = 0 then i else startLoop queueLen remaining (i + 1)

/-- Go `var maxConcurrency = runtime.NumCPU() * 2` (`main.go` 25). -/
def maxConcurrency (numCPU : Nat) : Nat := numCPU * 2

/-- Number of workers `main` launches on a machine with `numCPU` CPUs. -/
def workersLaunched (numCPU : Nat) (queueLen : Nat → Nat) : Nat :=
  startLoop queueLen (maxConcurrency numCPU) 0

/-! ## The repository's test of the classifier -/

/-- The three results computed by `TestHandleBootstrapErrorCommand`
(`handle_bootstrap_error.go` 29-37), in order `dnsResult`, `authResult`,
`timeoutResult`; the calls run one after another on the package-level
slices.  The test reports an error for each result that is not `true`. -/
def TestHandleBootstrapErrorCommand : List Bool :=
  let dnsOut := "nodename nor servname provided"
  let authOut := "Authentication failed"
  let timeoutOut := "ConnectionTimeout"
  let authHost : Host :=
    { Hostname := "testhost_auth", Domain := "testdomain", ChefEnv := "testenv",
      RunList := "testrecipe" }
  let dnsHost : Host :=
    { Hostname := "testhost_dns", Domain := "testdomain", ChefEnv := "testenv",
      RunList := "testrecipe" }
  let timeoutHost : Host :=
    { Hostname := "testhost_timeout", Domain := "testdomain", ChefEnv := "testenv",
      RunList := "testrecipe" }
  let r1 := handleBootstrapError dnsOut dnsHost 1 Globals.init
  let r2 := handleBootstrapError authOut authHost 1 r1.2
  let r3 := handleBootstrapError timeoutOut timeoutHost 1 r2.2
  [r1.1, r2.1, r3.1]

/-! ## Specification-side classification -/

/-- The closed enumeration of outcome classes named by the specification. -/
inductive Classification where
  | Success
  | DnsFailure
  | AuthFailure
  | TimeoutFailure
  | GeneralFailure
  | ToolFailure
  deriving DecidableEq, Repr

/-- The classifier as the specification words it (first match wins): auth
marker, else timeout marker, else DNS marker, else exit code 1, else exit
code 100, else success.  It is compared with `handleBootstrapError` below. -/
def specClassify (o : String) (exitCode : Int) : Classification :=
  if Contains o "Authentication failed" then .AuthFailure
  else if Contains o "ConnectionTimeout" then .TimeoutFailure
  else if Contains o "nodename nor servname provided" then .DnsFailure
  else if exitCode = 1 then .GeneralFailure
  else if exitCode = 100 then .ToolFailure
  else .Success

/-- The specification's `record(outcome)`: append the host to the bucket of
its classification; `Success` has no bucket. -/
def specRecord (g : Globals) (host : Host) : Classification → Globals
  | .Success => g
  | .DnsFailure => { g with badDNS := g.badDNS ++ [host] }
  | .AuthFailure => { g with authHosts := g.authHosts ++ [host] }
  | .TimeoutFailure => { g with timeoutHosts := g.timeoutHosts ++ [host] }
  | .GeneralFailure => { g with generalHosts := g.generalHosts ++ [host] }
  | .ToolFailure => { g with knifeHosts := g.knifeHosts ++ [host] }

/-- The classification of the result `runCommand` returns in the execution
`e`; `none` when `runCommand` does not return. -/
def specOutcome (e : Execution) : Option Classification :=
  match runCommand e.proc with
  | .error _ => none
  | .ok cmdOut => some (specClassify cmdOut.out cmdOut.exitCode)

/-- The hosts of the task list whose result is classified `c`, in order. -/
def hostsClassified (c : Classification) (tasks : List (Host × Execution)) : List Host :=
  (tasks.filter (fun t => decide (specOutcome t.2 = some c))).map (fun t => t.1)

/-! ## Basic facts -/

theorem containsFrom_iff (sub s : List Char) : containsFrom sub s = true ↔ sub <:+: s := by
  induction s with
  | nil =>
    cases sub <;> simp [containsFrom]
  | cons c cs ih =>
    simp only [containsFrom, Bool.or_eq_true, ih, List.isPrefixOf_iff_prefix]
    rw [List.infix_cons_iff]

theorem Contains_iff (s substr : String) :
    Contains s substr = true ↔ substr.toList <:+: s.toList :=
  containsFrom_iff _ _

theorem Contains_eq_false_iff (s substr : String) :
    Contains s substr = false ↔ ¬ substr.toList <:+: s.toList := by
  rw [← Contains_iff]; simp

/-- The classifier does what the specification's classifier and `record`
say: the boolean is "classified `Success`", the new slices are the old ones
with the host recorded under its classification. -/
theorem handleBootstrapError_eq_spec (o : String) (host : Host) (exitCode : Int) (g : Globals) :
    handleBootstrapError o host exitCode g =
      (decide (specClassify o exitCode = .Success), specRecord g host (specClassify o exitCode)) := by
  unfold handleBootstrapError specClassify
  split_ifs <;> simp [specRecord]

theorem copyLoop_take (src : List Host) (n : Nat) (hn : n ≤ src.length) :
    (List.range n).foldl
      (fun dst i => match src.get? i with
        | some h => dst ++ [h]
        | none => dst) [] = src.take n := by
  induction n with
  | zero => simp
  | succ n ih =>
    have hlt : n < src.length := hn
    rw [List.range_succ, List.foldl_append, ih (Nat.le_of_lt hlt)]
    have hget : src.get? n = some src[n] := by
      rw [List.get?_eq_getElem?]; exact List.getElem?_eq_getElem hlt
    simp only [List.foldl_cons, List.foldl_nil, hget]
    rw [List.take_succ, List.getElem?_eq_getElem hlt]
    rfl

/-- Each copy loop of `errorReport` reproduces its source slice. -/
theorem copyLoop_eq (src : List Host) : copyLoop src = src := by
  unfold copyLoop
  rw [copyLoop_take src src.length (Nat.le_refl _), List.take_length]

theorem hostsClassified_nil (c : Classification) : hostsClassified c [] = [] := rfl

theorem hostsClassified_ne_nil_iff (c : Classification) (tasks : List (Host × Execution)) :
    hostsClassified c tasks ≠ [] ↔ ∃ t ∈ tasks, specOutcome t.2 = some c := by
  simp [hostsClassified, List.filter_eq_nil_iff]

/-- An execution that completes: `runCommand` returns some result and the
write reports no error. -/
theorem completes_iff (e : Execution) :
    e.completes = true ↔ (∃ cmdOut, runCommand e.proc = .ok cmdOut) ∧ e.writeErr = false := by
  unfold Execution.completes
  cases runCommand e.proc <;> simp

/-- When the command cannot be run or the log file cannot be written,
`bootstrap` stops the program before anything is classified. -/
theorem bootstrap_error_of_not_completes (e : Execution) (host : Host) (g : Globals)
    (h : e.completes = false) : ∃ f, bootstrap e host g = .error f := by
  unfold Execution.completes at h
  unfold bootstrap
  cases hrc : runCommand e.proc with
  | error f => exact ⟨f, rfl⟩
  | ok cmdOut =>
    rw [hrc] at h
    have hw : e.writeErr = true := by simpa using h
    exact ⟨.writeFile, by simp [hw]⟩

/-- A completing `bootstrap` call records the host under the classification
of the command result. -/
theorem bootstrap_of_completes (e : Execution) (host : Host) (g : Globals)
    (h : e.completes = true) :
    ∃ c, specOutcome e = some c ∧ bootstrap e host g = .ok (specRecord g host c) := by
  unfold Execution.completes at h
  unfold bootstrap specOutcome
  cases hrc : runCommand e.proc with
  | error f => rw [hrc] at h; simp at h
  | ok cmdOut =>
    rw [hrc] at h
    have hw : e.writeErr = false := by simpa using h
    exact ⟨_, rfl, by simp [hw, handleBootstrapError_eq_spec]⟩

/-- The slices after a sequential run in which every call completes: each
one is its old value followed by the hosts of its classification, in
processing order. -/
theorem runSequential_eq (tasks : List (Host × Execution)) (g : Globals)
    (hclean : ∀ t ∈ tasks, t.2.completes = true) :
    runSequential tasks g = .ok
      { badDNS := g.badDNS ++ hostsClassified .DnsFailure tasks
        timeoutHosts := g.timeoutHosts ++ hostsClassified .TimeoutFailure tasks
        authHosts := g.authHosts ++ hostsClassified .AuthFailure tasks
        generalHosts := g.generalHosts ++ hostsClassified .GeneralFailure tasks
        knifeHosts := g.knifeHosts ++ hostsClassified .ToolFailure tasks } := by
  induction tasks generalizing g with
  | nil => simp [runSequential, hostsClassified_nil]
  | cons t rest ih =>
    obtain ⟨host, e⟩ := t
    obtain ⟨c, hc, hb⟩ := bootstrap_of_completes e host g (hclean (host, e) (List.mem_cons_self _ _))
    simp only [runSequential, hb]
    rw [ih _ (fun t ht => hclean t (List.mem_cons_of_mem _ ht))]
    cases c <;> simp [specRecord, hostsClassified, List.filter_cons, hc]

/-- A sequential run returns exactly when every call completes. -/
theorem runSequential_ok_iff (tasks : List (Host × Execution)) (g : Globals) :
    (∃ g1, runSequential tasks g = .ok g1) ↔ ∀ t ∈ tasks, t.2.completes = true := by
  constructor
  · intro h
    induction tasks generalizing g with
    | nil => simp
    | cons t rest ih =>
      obtain ⟨host, e⟩ := t
      obtain ⟨g1, hg1⟩ := h
      cases hcomp : e.completes with
      | false =>
        obtain ⟨f, hf⟩ := bootstrap_error_of_not_completes e host g hcomp
        simp [runSequential, hf] at hg1
      | true =>
        obtain ⟨c, _, hb⟩ := bootstrap_of_completes e host g hcomp
        simp only [runSequential, hb] at hg1
        intro t ht
        rcases List.mem_cons.1 ht with h1 | h1
        · subst h1; exact hcomp
        · exact ih _ ⟨g1, hg1⟩ t h1
  · intro h
    exact ⟨_, runSequential_eq tasks g h⟩

theorem sequentialResults_eq (tasks : List (Host × Execution)) (g : Globals)
    (hclean : ∀ t ∈ tasks, t.2.completes = true) :
    sequentialResults tasks g =
      .ok (tasks.map (fun t => decide (specOutcome t.2 = some .Success))) := by
  induction tasks generalizing g with
  | nil => simp [sequentialResults]
  | cons t rest ih =>
    obtain ⟨host, e⟩ := t
    have hcomp : e.completes = true := hclean (host, e) (List.mem_cons_self _ _)
    rw [completes_iff] at hcomp
    obtain ⟨⟨cmdOut, hrc⟩, hw⟩ := hcomp
    simp only [sequentialResults, hrc, hw, Bool.false_eq_true, if_false,
      ih _ (fun t ht => hclean t (List.mem_cons_of_mem _ ht)), List.map_cons,
      handleBootstrapError_eq_spec, specOutcome]
    simp

theorem hostValidate_ok_iff (hosts : List Host) :
    hostValidate hosts = .ok () ↔
      ∀ h ∈ hosts, h.Hostname ≠ " " ∧ h.Domain ≠ " " ∧ h.ChefEnv ≠ " " ∧ h.RunList ≠ " " := by
  induction hosts with
  | nil => simp [hostValidate]
  | cons element rest ih =>
    unfold hostValidate
    split_ifs <;> simp_all

theorem startLoop_le (queueLen : Nat → Nat) (remaining i : Nat) :
    startLoop queueLen remaining i ≤ i + remaining := by
  induction remaining generalizing i with
  | zero => simp [startLoop]
  | succ r ih =>
    unfold startLoop
    split_ifs
    · omega
    · have := ih (i + 1); omega

theorem startLoop_nonempty_before (queueLen : Nat → Nat) (remaining i j : Nat)
    (hij : i ≤ j) (hj : j < startLoop queueLen remaining i) : queueLen j ≠ 0 := by
  induction remaining generalizing i with
  | zero => simp [startLoop] at hj; omega
  | succ r ih =>
    unfold startLoop at hj
    split_ifs at hj with h0
    · omega
    · rcases Nat.eq_or_lt_of_le hij with h | h
      · subst h; exact h0
      · exact ih (i + 1) h hj

theorem startLoop_empty_at_exit (queueLen : Nat → Nat) (remaining i : Nat)
    (h : startLoop queueLen remaining i < i + remaining) :
    queueLen (startLoop queueLen remaining i) = 0 := by
  induction remaining generalizing i with
  | zero => simp [startLoop] at h
  | succ r ih =>
    unfold startLoop at h ⊢
    split_ifs at h ⊢ with h0
    · exact h0
    · exact ih (i + 1) (by omega)

theorem startLoop_one_each (N remaining i : Nat) :
    startLoop (fun k => N - k) remaining i = max i (min (i + remaining) N) := by
  induction remaining generalizing i with
  | zero => simp [startLoop]
  | succ r ih =>
    unfold startLoop
    split_ifs with h0
    · omega
    · rw [ih (i + 1)]; omega

/-! ## The classifier: marker priority and exit-code fallback -/

/-- C1: marker priority.  If the output contains "Authentication failed" the
host is appended to `authHosts`; otherwise, if it contains "ConnectionTimeout",
to `timeoutHosts`; otherwise, if it contains "nodename nor servname provided",
to `badDNS`.  In each case nothing else changes, the call returns `false`
(failure), and neither the exit code nor lower-priority markers matter. -/
theorem handleBootstrapError_marker_priority (o : String) (host : Host) (exitCode : Int)
    (g : Globals) :
    ("Authentication failed".toList <:+: o.toList →
      handleBootstrapError o host exitCode g =
        (false, { g with authHosts := g.authHosts ++ [host] })) ∧
    (¬ "Authentication failed".toList <:+: o.toList →
      "ConnectionTimeout".toList <:+: o.toList →
      handleBootstrapError o host exitCode g =
        (false, { g with timeoutHosts := g.timeoutHosts ++ [host] })) ∧
    (¬ "Authentication failed".toList <:+: o.toList →
      ¬ "ConnectionTimeout".toList <:+: o.toList →
      "nodename nor servname provided".toList <:+: o.toList →
      handleBootstrapError o host exitCode g =
        (false, { g with badDNS := g.badDNS ++ [host] })) := by
  simp only [← Contains_iff, Bool.not_eq_true]
  refine ⟨?_, ?_, ?_⟩
  · intro h
    simp [handleBootstrapError, h]
  · intro h1 h2
    simp [handleBootstrapError, h1, h2]
  · intro h1 h2 h3
    simp [handleBootstrapError, h1, h2, h3]

/-- C1 at concrete inputs: an output with the auth and timeout markers and
exit code 0 goes to `authHosts`; one with the timeout and DNS markers and
exit code 100 goes to `timeoutHosts`; one with the DNS marker and exit code 1
goes to `badDNS`. -/
theorem handleBootstrapError_marker_priority_witness :
    handleBootstrapError "ERROR: Authentication failed (ConnectionTimeout)"
        ⟨"web1", "example.com", "prod", "role[web]"⟩ 0 Globals.init =
      (false, { Globals.init with authHosts := [⟨"web1", "example.com", "prod", "role[web]"⟩] }) ∧
    handleBootstrapError "ConnectionTimeout: nodename nor servname provided"
        ⟨"web1", "example.com", "prod", "role[web]"⟩ 100 Globals.init =
      (false, { Globals.init with
        timeoutHosts := [⟨"web1", "example.com", "prod", "role[web]"⟩] }) ∧
    handleBootstrapError "getaddrinfo: nodename nor servname provided, or not known"
        ⟨"web1", "example.com", "prod", "role[web]"⟩ 1 Globals.init =
      (false, { Globals.init with badDNS := [⟨"web1", "example.com", "prod", "role[web]"⟩] }) :=
  ⟨(handleBootstrapError_marker_priority _ _ _ _).1 ((Contains_iff _ _).1 (by decide)),
   (handleBootstrapError_marker_priority _ _ _ _).2.1
     ((Contains_eq_false_iff _ _).1 (by decide)) ((Contains_iff _ _).1 (by decide)),
   (handleBootstrapError_marker_priority _ _ _ _).2.2
     ((Contains_eq_false_iff _ _).1 (by decide)) ((Contains_eq_false_iff _ _).1 (by decide))
     ((Contains_iff _ _).1 (by decide))⟩

/-- C2: exit-code fallback.  For an output containing none of the three
markers, exit code 1 appends the host to `generalHosts` only and returns
`false`, exit code 100 appends it to `knifeHosts` only and returns `false`,
and every other exit code, 0 among them, changes no slice and returns `true`. -/
theorem handleBootstrapError_exit_code_fallback (o : String) (host : Host) (g : Globals)
    (hAuth : ¬ "Authentication failed".toList <:+: o.toList)
    (hTimeout : ¬ "ConnectionTimeout".toList <:+: o.toList)
    (hDns : ¬ "nodename nor servname provided".toList <:+: o.toList) :
    handleBootstrapError o host 1 g =
      (false, { g with generalHosts := g.generalHosts ++ [host] }) ∧
    handleBootstrapError o host 100 g =
      (false, { g with knifeHosts := g.knifeHosts ++ [host] }) ∧
    handleBootstrapError o host 0 g = (true, g) ∧
    ∀ exitCode : Int, exitCode ≠ 1 → exitCode ≠ 100 →
      handleBootstrapError o host exitCode g = (true, g) := by
  rw [← Contains_eq_false_iff] at hAuth hTimeout hDns
  refine ⟨?_, ?_, ?_, ?_⟩
  · simp [handleBootstrapError, hAuth, hTimeout, hDns]
  · simp [handleBootstrapError, hAuth, hTimeout, hDns]
  · simp [handleBootstrapError, hAuth, hTimeout, hDns]
  · intro exitCode h1 h100
    simp [handleBootstrapError, hAuth, hTimeout, hDns, h1, h100]

/-- C2 at a concrete output that spells the markers in another letter case
and with other spacing, so that none of them matches. -/
theorem handleBootstrapError_exit_code_fallback_witness :
    (¬ "Authentication failed".toList <:+:
        "authentication failed; Connection Timeout; NODENAME NOR SERVNAME PROVIDED".toList) ∧
    handleBootstrapError "authentication failed; Connection Timeout; NODENAME NOR SERVNAME PROVIDED"
        ⟨"web1", "example.com", "prod", "role[web]"⟩ 1 Globals.init =
      (false, { Globals.init with
        generalHosts := [⟨"web1", "example.com", "prod", "role[web]"⟩] }) ∧
    handleBootstrapError "authentication failed; Connection Timeout; NODENAME NOR SERVNAME PROVIDED"
        ⟨"web1", "example.com", "prod", "role[web]"⟩ 100 Globals.init =
      (false, { Globals.init with
        knifeHosts := [⟨"web1", "example.com", "prod", "role[web]"⟩] }) ∧
    handleBootstrapError "authentication failed; Connection Timeout; NODENAME NOR SERVNAME PROVIDED"
        ⟨"web1", "example.com", "prod", "role[web]"⟩ 0 Globals.init = (true, Globals.init) :=
  have h := handleBootstrapError_exit_code_fallback
    "authentication failed; Connection Timeout; NODENAME NOR SERVNAME PROVIDED"
    ⟨"web1", "example.com", "prod", "role[web]"⟩ Globals.init
    ((Contains_eq_false_iff _ _).1 (by decide)) ((Contains_eq_false_iff _ _).1 (by decide))
    ((Contains_eq_false_iff _ _).1 (by decide))
  ⟨(Contains_eq_false_iff _ _).1 (by decide), h.1, h.2.1, h.2.2.1⟩

/-- C3: the three calls made by `TestHandleBootstrapErrorCommand`, each on a
bare marker string with exit code 1, all return `false`, where the test
expects `true`; the same holds for every output containing a marker. -/
theorem TestHandleBootstrapErrorCommand_results :
    TestHandleBootstrapErrorCommand = [false, false, false] ∧
    ∀ (o : String) (host : Host) (g : Globals),
      ("nodename nor servname provided".toList <:+: o.toList ∨
        "Authentication failed".toList <:+: o.toList ∨
        "ConnectionTimeout".toList <:+: o.toList) →
      (handleBootstrapError o host 1 g).1 = false := by
  refine ⟨by decide, ?_⟩
  intro o host g h
  simp only [← Contains_iff] at h
  unfold handleBootstrapError
  split_ifs <;> simp_all

/-! ## Input validation -/

/-- C4: a list whose only descriptor has a zero-length Hostname passes
`hostValidate`, and `csvToHosts` returns it; the same holds for a zero-length
Domain, ChefEnv or RunList.  A descriptor whose Hostname is the one-character
string " " has four non-empty fields and is the one that is rejected. -/
theorem hostValidate_accepts_empty_field :
    hostValidate [⟨"", "example.com", "prod", "role[web]"⟩] = .ok () ∧
    csvToHosts [["", "example.com", "prod", "role[web]"]] =
      .ok [⟨"", "example.com", "prod", "role[web]"⟩] ∧
    hostValidate [⟨"web1", "", "prod", "role[web]"⟩] = .ok () ∧
    hostValidate [⟨"web1", "example.com", "", "role[web]"⟩] = .ok () ∧
    hostValidate [⟨"web1", "example.com", "prod", ""⟩] = .ok () ∧
    hostValidate [⟨" ", "example.com", "prod", "role[web]"⟩] =
      .error (.noHostname ⟨" ", "example.com", "prod", "role[web]"⟩) :=
  ⟨rfl, rfl, rfl, rfl, rfl, rfl⟩

/-! ## Report -/

/-- C5: a sequential run from empty slices in which every task gets its
command result and its log file written returns, and then `main` prints a
report exactly when some task was classified other than `Success`
(equivalently, when some call of `handleBootstrapError` returned `false`);
with every task `Success` nothing is printed; and a printed report is
`errorReport` of the final slices and has a non-empty field. -/
theorem mainReport_emitted_iff (tasks : List (Host × Execution))
    (hclean : ∀ t ∈ tasks, t.2.completes = true) :
    ∃ g, runSequential tasks Globals.init = .ok g ∧
      ((mainReport g).isSome = true ↔ ∃ t ∈ tasks, specOutcome t.2 ≠ some .Success) ∧
      (∃ rs, sequentialResults tasks Globals.init = .ok rs ∧
        ((mainReport g).isSome = true ↔ false ∈ rs)) ∧
      ((∀ t ∈ tasks, specOutcome t.2 = some .Success) → mainReport g = none) ∧
      (∀ r : Report, mainReport g = some r →
        r = errorReport g ∧
        (r.DNSHost ≠ [] ∨ r.AuthHosts ≠ [] ∨ r.TimeoutHosts ≠ [] ∨ r.GeneralHosts ≠ [] ∨
          r.KnifeHosts ≠ [])) := by
  refine ⟨_, runSequential_eq tasks Globals.init hclean, ?_⟩
  have hsome : ∀ t ∈ tasks, ∃ c, specOutcome t.2 = some c := fun t ht =>
    let ⟨c, hc, _⟩ := bootstrap_of_completes t.2 t.1 Globals.init (hclean t ht)
    ⟨c, hc⟩
  have key : (mainReport
      { badDNS := Globals.init.badDNS ++ hostsClassified .DnsFailure tasks
        timeoutHosts := Globals.init.timeoutHosts ++ hostsClassified .TimeoutFailure tasks
        authHosts := Globals.init.authHosts ++ hostsClassified .AuthFailure tasks
        generalHosts := Globals.init.generalHosts ++ hostsClassified .GeneralFailure tasks
        knifeHosts := Globals.init.knifeHosts ++ hostsClassified .ToolFailure tasks }).isSome
        = true ↔ ∃ t ∈ tasks, specOutcome t.2 ≠ some .Success := by
    unfold mainReport
    simp only [Globals.init, List.nil_append, List.length_pos, gt_iff_lt, Bool.or_eq_true,
      decide_eq_true_eq, hostsClassified_ne_nil_iff]
    constructor
    · intro h
      split_ifs at h with hc
      · rcases hc with (((⟨t, ht, hc⟩ | ⟨t, ht, hc⟩) | ⟨t, ht, hc⟩) | ⟨t, ht, hc⟩) | ⟨t, ht, hc⟩ <;>
          exact ⟨t, ht, by rw [hc]; decide⟩
      · simp at h
    · rintro ⟨t, ht, hne⟩
      obtain ⟨c, hcl⟩ := hsome t ht
      have hc : ((((∃ t ∈ tasks, specOutcome t.2 = some .ToolFailure) ∨
          (∃ t ∈ tasks, specOutcome t.2 = some .GeneralFailure)) ∨
          (∃ t ∈ tasks, specOutcome t.2 = some .DnsFailure)) ∨
          (∃ t ∈ tasks, specOutcome t.2 = some .TimeoutFailure)) ∨
          (∃ t ∈ tasks, specOutcome t.2 = some .AuthFailure) := by
        cases c with
        | Success => exact absurd hcl hne
        | DnsFailure => exact Or.inl (Or.inl (Or.inr ⟨t, ht, hcl⟩))
        | AuthFailure => exact Or.inr ⟨t, ht, hcl⟩
        | TimeoutFailure => exact Or.inl (Or.inr ⟨t, ht, hcl⟩)
        | GeneralFailure => exact Or.inl (Or.inl (Or.inl (Or.inr ⟨t, ht, hcl⟩)))
        | ToolFailure => exact Or.inl (Or.inl (Or.inl (Or.inl ⟨t, ht, hcl⟩)))
      rw [if_pos hc]; rfl
  refine ⟨key, ?_, ?_, ?_⟩
  · refine ⟨_, sequentialResults_eq tasks Globals.init hclean, ?_⟩
    rw [key]
    simp
  · intro hall
    have hno : ¬ (mainReport
      { badDNS := Globals.init.badDNS ++ hostsClassified .DnsFailure tasks
        timeoutHosts := Globals.init.timeoutHosts ++ hostsClassified .TimeoutFailure tasks
        authHosts := Globals.init.authHosts ++ hostsClassified .AuthFailure tasks
        generalHosts := Globals.init.generalHosts ++ hostsClassified .GeneralFailure tasks
        knifeHosts := Globals.init.knifeHosts ++ hostsClassified .ToolFailure tasks }).isSome
        = true := by
      rw [key]
      rintro ⟨t, ht, hne⟩
      exact hne (hall t ht)
    revert hno
    cases mainReport _ with
    | none => intro _; rfl
    | some r => intro hno; simp at hno
  · intro r hr
    unfold mainReport at hr
    split_ifs at hr with hc
    have hr2 := Option.some.inj hr
    refine ⟨hr2.symm, ?_⟩
    rw [← hr2]
    simp only [errorReport, copyLoop_eq]
    simp only [gt_iff_lt, Bool.or_eq_true, decide_eq_true_eq, List.length_pos] at hc
    tauto

/-- C5 at concrete inputs: a successful task followed by one whose output
has the auth marker; both calls complete, the run returns and a report is
printed. -/
theorem mainReport_emitted_iff_witness :
    (∀ t ∈ [((⟨"web1", "example.com", "prod", "role[web]"⟩ : Host),
        (⟨⟨false, .success, "Chef Client finished", ""⟩, false⟩ : Execution)),
       (⟨"web2", "example.com", "prod", "role[web]"⟩,
        ⟨⟨false, .exitError (some 1), "", "Authentication failed"⟩, false⟩)],
      t.2.completes = true) ∧
    ∃ g, runSequential
      [((⟨"web1", "example.com", "prod", "role[web]"⟩ : Host),
        (⟨⟨false, .success, "Chef Client finished", ""⟩, false⟩ : Execution)),
       (⟨"web2", "example.com", "prod", "role[web]"⟩,
        ⟨⟨false, .exitError (some 1), "", "Authentication failed"⟩, false⟩)]
      Globals.init = .ok g ∧ (mainReport g).isSome = true :=
  ⟨by decide,
   let ⟨g, hg, hiff, _⟩ := mainReport_emitted_iff
      [((⟨"web1", "example.com", "prod", "role[web]"⟩ : Host),
        (⟨⟨false, .success, "Chef Client finished", ""⟩, false⟩ : Execution)),
       (⟨"web2", "example.com", "prod", "role[web]"⟩,
        ⟨⟨false, .exitError (some 1), "", "Authentication failed"⟩, false⟩)]
      (by decide)
   ⟨g, hg, hiff.2 ⟨(⟨"web2", "example.com", "prod", "role[web]"⟩,
        ⟨⟨false, .exitError (some 1), "", "Authentication failed"⟩, false⟩),
      by simp, by decide⟩⟩⟩

/-- C6: a sequential run from empty slices in which every task gets its
command result and its log file written returns, and each field of the
report is then exactly the subsequence of the task list's hosts that received
the corresponding classification, in processing order; the fields together
hold as many entries as there are non-`Success` tasks, and the `Success`
hosts followed by the five fields are a rearrangement of the task list's
hosts, so that every task is accounted for once. -/
theorem errorReport_sequential (tasks : List (Host × Execution))
    (hclean : ∀ t ∈ tasks, t.2.completes = true) :
    ∃ g, runSequential tasks Globals.init = .ok g ∧
      (errorReport g).DNSHost = hostsClassified .DnsFailure tasks ∧
      (errorReport g).AuthHosts = hostsClassified .AuthFailure tasks ∧
      (errorReport g).TimeoutHosts = hostsClassified .TimeoutFailure tasks ∧
      (errorReport g).GeneralHosts = hostsClassified .GeneralFailure tasks ∧
      (errorReport g).KnifeHosts = hostsClassified .ToolFailure tasks ∧
      (errorReport g).DNSHost.length + (errorReport g).AuthHosts.length +
        (errorReport g).TimeoutHosts.length + (errorReport g).GeneralHosts.length +
        (errorReport g).KnifeHosts.length =
        (tasks.filter (fun t => decide (specOutcome t.2 ≠ some .Success))).length ∧
      List.Perm
        (hostsClassified .Success tasks ++
          ((errorReport g).DNSHost ++
          ((errorReport g).AuthHosts ++
          ((errorReport g).TimeoutHosts ++
          ((errorReport g).GeneralHosts ++
          (errorReport g).KnifeHosts)))))
        (tasks.map (fun t => t.1)) := by
  refine ⟨_, runSequential_eq tasks Globals.init hclean, ?_⟩
  have hsome : ∀ t ∈ tasks, ∃ c, specOutcome t.2 = some c := fun t ht =>
    let ⟨c, hc, _⟩ := bootstrap_of_completes t.2 t.1 Globals.init (hclean t ht)
    ⟨c, hc⟩
  simp only [errorReport, copyLoop_eq, Globals.init, List.nil_append, true_and]
  clear hclean
  constructor
  · induction tasks with
    | nil => simp [hostsClassified]
    | cons t rest ih =>
      obtain ⟨host, e⟩ := t
      have ih1 := ih (fun t ht => hsome t (List.mem_cons_of_mem _ ht))
      obtain ⟨c, hc⟩ := hsome (host, e) (List.mem_cons_self _ _)
      cases c <;>
        simp [hostsClassified, List.filter_cons, hc] at ih1 ⊢ <;> omega
  · induction tasks with
    | nil => simp [hostsClassified]
    | cons t rest ih =>
      obtain ⟨host, e⟩ := t
      have ih1 := ih (fun t ht => hsome t (List.mem_cons_of_mem _ ht))
      obtain ⟨c, hc⟩ := hsome (host, e) (List.mem_cons_self _ _)
      rw [List.perm_iff_count] at ih1 ⊢
      intro a
      have ha := ih1 a
      cases c <;>
        simp [hostsClassified, List.filter_cons, hc, List.count_cons] at ha ⊢ <;> omega

/-- C6 at concrete inputs: of three tasks, the first succeeds, the second
shows the auth marker and the third exits with code 100; the report lists
the second under `AuthHosts` and the third under `KnifeHosts`. -/
theorem errorReport_sequential_witness :
    (∀ t ∈ [((⟨"web1", "example.com", "prod", "role[web]"⟩ : Host),
        (⟨⟨false, .success, "Chef Client finished", ""⟩, false⟩ : Execution)),
       (⟨"web2", "example.com", "prod", "role[web]"⟩,
        ⟨⟨false, .exitError (some 1), "", "Authentication failed"⟩, false⟩),
       (⟨"web3", "example.com", "prod", "role[web]"⟩,
        ⟨⟨false, .exitError (some 100), "", "knife: no such command"⟩, false⟩)],
      t.2.completes = true) ∧
    ∃ g, runSequential
      [((⟨"web1", "example.com", "prod", "role[web]"⟩ : Host),
        (⟨⟨false, .success, "Chef Client finished", ""⟩, false⟩ : Execution)),
       (⟨"web2", "example.com", "prod", "role[web]"⟩,
        ⟨⟨false, .exitError (some 1), "", "Authentication failed"⟩, false⟩),
       (⟨"web3", "example.com", "prod", "role[web]"⟩,
        ⟨⟨false, .exitError (some 100), "", "knife: no such command"⟩, false⟩)]
      Globals.init = .ok g ∧
      (errorReport g).AuthHosts = [⟨"web2", "example.com", "prod", "role[web]"⟩] ∧
      (errorReport g).KnifeHosts = [⟨"web3", "example.com", "prod", "role[web]"⟩] ∧
      (errorReport g).DNSHost = [] :=
  ⟨by decide,
   let ⟨g, hg, hdns, hauth, _, _, hknife, _⟩ := errorReport_sequential
      [((⟨"web1", "example.com", "prod", "role[web]"⟩ : Host),
        (⟨⟨false, .success, "Chef Client finished", ""⟩, false⟩ : Execution)),
       (⟨"web2", "example.com", "prod", "role[web]"⟩,
        ⟨⟨false, .exitError (some 1), "", "Authentication failed"⟩, false⟩),
       (⟨"web3", "example.com", "prod", "role[web]"⟩,
        ⟨⟨false, .exitError (some 100), "", "knife: no such command"⟩, false⟩)]
      (by decide)
   ⟨g, hg, hauth.trans (by decide), hknife.trans (by decide), hdns.trans (by decide)⟩⟩

/-! ## Command string -/

/-- C7: `generateCommand` yields "knife bootstrap " followed by
Hostname "." Domain, " -N " Hostname, " -E " ChefEnv, " --sudo --ssh-user "
and the value of `superuserName`, " --ssh-password " and the value of
`superuserPw`, " -r " RunList; with both variables unset and the host of
`TestGenerateCommand` it is the string that test expects. -/
theorem generateCommand_format (getenv : String → String) (host : Host) :
    generateCommand getenv host =
      "knife bootstrap " ++ host.Hostname ++ "." ++ host.Domain ++ " -N " ++ host.Hostname ++
        " -E " ++ host.ChefEnv ++ " --sudo --ssh-user " ++ getenv "superuserName" ++
        " --ssh-password " ++ getenv "superuserPw" ++ " -r " ++ host.RunList ∧
    generateCommand (fun _ => "") ⟨"testhost", "testdomain", "testenv", "testrecipe"⟩ =
      "knife bootstrap testhost.testdomain -N testhost -E testenv --sudo --ssh-user  --ssh-password  -r testrecipe" := by
  constructor
  · simp [generateCommand, Join, String.intercalate, String.intercalate.go, String.append_assoc]
  · decide

/-! ## Pool start -/

/-- C8, as stated, fails: on a 1-CPU machine (`maxConcurrency = 2`) with 3
tasks queued, when the first worker has emptied the queue by the time the
loop condition is evaluated again, one worker is launched, not
`min (max 1 (2 * 1)) 3 = 2`. -/
theorem workersLaunched_not_min :
    workersLaunched 1 (fun i => if i = 0 then 3 else 0) = 1 ∧
    workersLaunched 1 (fun i => if i = 0 then 3 else 0) ≠
      min (max 1 (2 * 1)) ((fun i : Nat => if i = 0 then 3 else 0) 0) := by
  decide

/-- C8, amended: the number of workers launched is the first loop counter
below `2 * numCPU` at which the queue is observed empty, and `2 * numCPU` if
there is none.  So it is at most `2 * numCPU`, and 0 when the queue is empty
at start.  When every launched worker has taken at least one task before the
next evaluation of the loop condition it is at most the number of tasks
queued at start, and when each has taken exactly one it is
`min (2 * numCPU) N`. -/
theorem workersLaunched_spec (numCPU : Nat) (queueLen : Nat → Nat) :
    workersLaunched numCPU queueLen ≤ 2 * numCPU ∧
    (∀ j, j < workersLaunched numCPU queueLen → queueLen j ≠ 0) ∧
    (workersLaunched numCPU queueLen < 2 * numCPU →
      queueLen (workersLaunched numCPU queueLen) = 0) ∧
    (queueLen 0 = 0 → workersLaunched numCPU queueLen = 0) ∧
    ((∀ i, queueLen i ≤ queueLen 0 - i) →
      workersLaunched numCPU queueLen ≤ min (2 * numCPU) (queueLen 0)) ∧
    (∀ N, workersLaunched numCPU (fun i => N - i) = min (2 * numCPU) N) := by
  have hle : workersLaunched numCPU queueLen ≤ 2 * numCPU := by
    have := startLoop_le queueLen (maxConcurrency numCPU) 0
    simp only [workersLaunched, maxConcurrency] at this ⊢
    omega
  have hbefore : ∀ j, j < workersLaunched numCPU queueLen → queueLen j ≠ 0 := fun j hj =>
    startLoop_nonempty_before queueLen (maxConcurrency numCPU) 0 j (Nat.zero_le _) hj
  refine ⟨hle, hbefore, ?_, ?_, ?_, ?_⟩
  · intro h
    apply startLoop_empty_at_exit
    simp only [workersLaunched, maxConcurrency] at h ⊢
    omega
  · intro h0
    by_contra hne
    exact hbefore 0 (Nat.pos_of_ne_zero hne) h0
  · intro hq
    refine Nat.le_min.2 ⟨hle, ?_⟩
    by_contra hgt
    have hlt : queueLen 0 < workersLaunched numCPU queueLen := Nat.lt_of_not_le hgt
    have h1 := hbefore (queueLen 0) hlt
    have h2 := hq (queueLen 0)
    omega
  · intro N
    simp only [workersLaunched, maxConcurrency]
    rw [startLoop_one_each]
    omega

/-- C8 amended, at concrete inputs: 2 CPUs and the queue lengths 3, 2, 1, 0
seen by the loop give 3 workers. -/
theorem workersLaunched_spec_witness :
    workersLaunched 2 (fun i => 3 - i) ≤ min (2 * 2) ((fun i : Nat => 3 - i) 0) ∧
    workersLaunched 2 (fun i => 3 - i) = 3 :=
  ⟨(workersLaunched_spec 2 (fun i => 3 - i)).2.2.2.2.1 (fun i => Nat.le_refl _), by decide⟩

/-! ## Worker -/

/-- C10: a worker whose `queue.Get(2)` returns no item together with an
error does not return normally: the type assertion on the missing item
stops it, whatever its state and whatever passes would follow; the check of
`err` is never reached. -/
theorem worker_empty_dequeue_panics (w : WorkerState) (exec : Execution)
    (rest : List Attempt) :
    workerIteration none true exec w = .error .nilTypeAssertion ∧
    worker ({ val := none, errNonNil := true, exec := exec } :: rest) w =
      .error .nilTypeAssertion := by
  simp [worker, workerIteration]

end Gopherboots
